import Mathlib

/-!
Shallow embedding of `src/backend/executor/cypher_create.c` (the Cypher
CREATE clause executor) and proofs about it.

The C file drives creation of vertices and edges for one CREATE pattern:
`create_vertex` and `create_edge` are mutually recursive over the list of
remaining target nodes of a path, `process_pattern` walks every path of the
pattern for one input row, and `exec_cypher_create` implements the
terminal / passthrough produce operation of the custom scan node.

Modelling conventions:
- PostgreSQL `Datum`s that hold agtype values are modelled by `AgValue`;
  opaque datums by the `rawV` constructor.
- `ereport(ERROR, ...)` is modelled by an error result that carries the
  state at the moment the error was raised (the enclosing transaction is
  what discards the writes, which is outside this engine).
- the heap (`heap_insert`) is modelled as an ordered insert log `store`;
  index machinery is not observable at this level and is omitted.
- the estate command id is an integer counter; the pulls from the upstream
  plan node are logged as events so that the ordering of the
  decrement / pull / increment protocol is observable.
-/

/-- Graph identifiers (`graphid`), opaque at this level. -/
abbrev Graphid := Int

/-- agtype values as far as this executor observes them: vertices, edges,
paths (built by `make_vertex` / `make_edge` / `make_path`) and opaque
scalar payloads (property maps, other datums). -/
inductive AgValue : Type where
  | vertexV (id : Graphid) (label : String) (props : AgValue)
  | edgeV (id : Graphid) (startId : Graphid) (endId : Graphid)
      (label : String) (props : AgValue)
  | pathV (elems : List AgValue)
  | rawV (n : Int)
deriving Repr

/-- A scan tuple slot: parallel arrays `tts_values` / `tts_isnull`. -/
structure ScanSlot where
  values : List AgValue
  isnull : List Bool
deriving Repr

/-- Read `tts_values[i]` (out of range reads give an opaque datum). -/
def slotValue (t : ScanSlot) (i : Nat) : AgValue :=
  t.values.getD i (.rawV 0)

/-- Read `tts_isnull[i]`. -/
def slotIsNull (t : ScanSlot) (i : Nat) : Bool :=
  t.isnull.getD i true

/-- Write `tts_values[i] = v; tts_isnull[i] = false` (the code always pairs
the two assignments). -/
def slotAssign (t : ScanSlot) (i : Nat) (v : AgValue) : ScanSlot :=
  { values := t.values.set i v, isnull := t.isnull.set i false }

/-- A tuple as inserted by `insert_entity_tuple`: column values together
with their null flags, plus the relation it was written to. -/
inductive StoredTuple : Type where
  | vertexT (relid : Nat) (id : Graphid) (id_isnull : Bool)
      (props : AgValue) (props_isnull : Bool)
  | edgeT (relid : Nat) (id : Graphid) (id_isnull : Bool)
      (start_id : Graphid) (start_isnull : Bool)
      (end_id : Graphid) (end_isnull : Bool)
      (props : AgValue) (props_isnull : Bool)
deriving Repr

/-- `clause_tuple_information`: the physical write recorded for a
variable. -/
structure TupleInfo where
  name : String
  tup : StoredTuple
deriving Repr

/-- The errors this file raises via `ereport(ERROR, ...)`. -/
inductive CreateError : Type where
  | missingDirection
  | typeMismatch
  | staleReference (v : Option String)
  | constraintViolation
  | unsupportedReiteration
  | brokenPath
deriving Repr, DecidableEq

/-- Events around the command id counter and the upstream pulls, logged so
the visibility protocol is observable. -/
inductive Event : Type where
  | decCmd
  | pullRow (cid : Int) (got : Bool)
  | incCmd
deriving Repr, DecidableEq

/-- The mutable state of one statement execution: the shared scan tuple
(binding context), the path accumulator `css->path_values`, the recorded
writes `css->tuple_info`, the heap insert log, the log of
`entity_exists` lookups, the estate command id, and the event trace. -/
structure CreateState where
  scantuple : ScanSlot
  path_values : List AgValue
  tuple_info : List TupleInfo
  store : List StoredTuple
  exists_calls : List Graphid
  command_id : Int
  trace : List Event
deriving Repr

/-- Result of a fallible executor step; an error keeps the state at the
moment `ereport(ERROR, ...)` fired. -/
inductive CResult (α : Type) : Type where
  | ok (a : α) (s : CreateState)
  | err (e : CreateError) (s : CreateState)
deriving Repr

/-- The state carried by a result, whether or not an error was raised. -/
def stateOf {α : Type} : CResult α → CreateState
  | .ok _ s => s
  | .err _ s => s

/-- `LABEL_KIND_VERTEX` / `LABEL_KIND_EDGE`. -/
inductive LabelKind : Type where
  | vertex
  | edge
deriving Repr, DecidableEq

/-- `CYPHER_REL_DIR_*`; `undirected` stands for the absent direction. -/
inductive RelDir : Type where
  | left
  | right
  | undirected
deriving Repr, DecidableEq

/-- Modelled from the spec: the header defining the
`CYPHER_TARGET_NODE_*` flag macros is not under src/; the spec lists the
insert/reference mode, the variable presence, `emits_output`, `in_path`
and `skip_existence_check` as independent boolean flags of a target
node. -/
structure TargetNodeFlags where
  insert_entity : Bool
  is_variable : Bool
  emits_output : Bool
  in_path : Bool
  skip_existence_check : Bool
deriving Repr, DecidableEq

/-- `CYPHER_TARGET_NODE_INSERT_ENTITY`. -/
def CYPHER_TARGET_NODE_INSERT_ENTITY (f : TargetNodeFlags) : Bool :=
  f.insert_entity

/-- `CYPHER_TARGET_NODE_OUTPUT`: modelled from the spec as the
`emits_output` flag. -/
def CYPHER_TARGET_NODE_OUTPUT (f : TargetNodeFlags) : Bool :=
  f.emits_output

/-- `CYPHER_TARGET_NODE_IN_PATH`. -/
def CYPHER_TARGET_NODE_IN_PATH (f : TargetNodeFlags) : Bool :=
  f.in_path

/-- `CYPHER_TARGET_NODE_IS_VARIABLE`. -/
def CYPHER_TARGET_NODE_IS_VARIABLE (f : TargetNodeFlags) : Bool :=
  f.is_variable

/-- `SAFE_TO_SKIP_EXISTENCE_CHECK`. -/
def SAFE_TO_SKIP_EXISTENCE_CHECK (f : TargetNodeFlags) : Bool :=
  f.skip_existence_check

/-- One pattern element (`cypher_target_node`). `id_value` / `id_isnull`
are the result of evaluating `id_expr` for the current row. -/
structure cypher_target_node where
  type : LabelKind
  dir : RelDir
  flags : TargetNodeFlags
  relid : Nat
  label_name : String
  variable_name : Option String
  prop_attr_num : Nat
  tuple_position : Nat
  id_value : Graphid
  id_isnull : Bool
deriving Repr

/-- One path of the pattern (`cypher_create_path`); `path_attr_num` is
`none` for `InvalidAttrNumber`. -/
structure cypher_create_path where
  target_nodes : List cypher_target_node
  path_attr_num : Option Nat
deriving Repr

/-- The external collaborators: storage visibility for `entity_exists`,
the recorded-write lookup of `get_heap_tuple` (cypher_utils, not under
src/, modelled from the spec), constraint checking, and the two
projections applied in passthrough mode. -/
structure Env where
  graph_oid : Nat
  entity_visible : Nat → Graphid → Bool
  var_last_write_deleted : Option String → Bool
  constraints_ok : StoredTuple → Bool
  project_child : ScanSlot → ScanSlot
  project_self : ScanSlot → ScanSlot

/-- Modelled from the spec: `make_vertex` (utils/agtype, not under src/)
builds a vertex value from id, label and properties. -/
def make_vertex (id : Graphid) (label : String) (props : AgValue) : AgValue :=
  .vertexV id label props

/-- Modelled from the spec: `make_edge` (utils/agtype, not under src/)
builds an edge value from id, endpoints, label and properties. -/
def make_edge (id sid eid : Graphid) (label : String) (props : AgValue) :
    AgValue :=
  .edgeV id sid eid label props

/-- Modelled from the spec: `make_path` (utils/agtype, not under src/)
assembles a path value from the accumulated list of values. -/
def make_path (l : List AgValue) : AgValue :=
  .pathV l

/-- Embedding of `entity_exists`: a point lookup of the graphid under the
statement's current snapshot (the heap scan machinery is PostgreSQL
infrastructure, collapsed into `Env.entity_visible`). -/
def entity_exists (env : Env) (graph_oid : Nat) (id : Graphid) : Bool :=
  env.entity_visible graph_oid id

/-- Embedding of `insert_entity_tuple`: check constraints, then append
the tuple to the heap insert log. -/
def insert_entity_tuple (env : Env) (tup : StoredTuple) (s : CreateState) :
    CResult StoredTuple :=
  if env.constraints_ok tup then
    .ok tup { s with store := s.store ++ [tup] }
  else
    .err .constraintViolation s

/-- Modelled from the spec: `add_tuple_info` (cypher_utils, not under
src/) records a physical write for a variable. -/
def add_tuple_info (l : List TupleInfo) (tup : StoredTuple) (name : String) :
    List TupleInfo :=
  l ++ [⟨name, tup⟩]

/-- The insert branch of `create_vertex` (mode `insert`): evaluate
`id_expr`, fill the element tuple slot (id and properties columns),
insert the tuple, record the physical write when the element has a
variable, and when the element is output build the vertex value, append
it to the path accumulator when `in_path` and bind it to the variable's
slot when `is_variable`.  Returns the new vertex's graphid. -/
def create_vertex_insert (env : Env) (node : cypher_target_node)
    (s : CreateState) : CResult Graphid :=
  let id := node.id_value
  let tup : StoredTuple := .vertexT node.relid id node.id_isnull
    (slotValue s.scantuple node.prop_attr_num)
    (slotIsNull s.scantuple node.prop_attr_num)
  match insert_entity_tuple env tup s with
  | .err e s1 => .err e s1
  | .ok tuple s1 =>
    let s2 :=
      match node.variable_name with
      | some nm => { s1 with tuple_info := s1.tuple_info ++ [⟨nm, tuple⟩] }
      | none => s1
    let s3 :=
      if CYPHER_TARGET_NODE_OUTPUT node.flags then
        let result := make_vertex id node.label_name
          (slotValue s2.scantuple node.prop_attr_num)
        let s3a :=
          if CYPHER_TARGET_NODE_IN_PATH node.flags then
            { s2 with path_values := s2.path_values ++ [result] }
          else s2
        if CYPHER_TARGET_NODE_IS_VARIABLE node.flags then
          { s3a with scantuple :=
              slotAssign s3a.scantuple (node.tuple_position - 1) result }
        else s3a
      else s2
    .ok id s3

/-- The two-part liveness check of the reference branch of
`create_vertex` (run unless `skip_existence_check` is set): first consult
the recorded physical write for the variable (`get_heap_tuple`), then do
the storage lookup (`entity_exists`); either negative outcome raises the
stale-reference error naming the variable. -/
def check_vertex_liveness (env : Env) (node : cypher_target_node)
    (id : Graphid) (s : CreateState) : CResult Unit :=
  if !(SAFE_TO_SKIP_EXISTENCE_CHECK node.flags) then
    let is_deleted := env.var_last_write_deleted node.variable_name
    if is_deleted then
      .err (.staleReference node.variable_name) s
    else
      let s0 := { s with exists_calls := s.exists_calls ++ [id] }
      if !(entity_exists env env.graph_oid id) then
        .err (.staleReference node.variable_name) s0
      else
        .ok () s0
  else
    .ok () s

/-- The reference branch of `create_vertex` (mode `reference`): read the
bound value from the scan tuple, require it to be a vertex value, run the
two-part liveness check unless `skip_existence_check` is set, and append
the bound value to the path accumulator when `in_path`.  Returns the
originally bound graphid. -/
def create_vertex_reference (env : Env) (node : cypher_target_node)
    (s : CreateState) : CResult Graphid :=
  match slotValue s.scantuple (node.tuple_position - 1) with
  | .vertexV vid lbl pr =>
    let id := vid
    match check_vertex_liveness env node id s with
    | .err e sx => .err e sx
    | .ok _ s1 =>
      let s2 :=
        if CYPHER_TARGET_NODE_IN_PATH node.flags then
          { s1 with path_values :=
              s1.path_values ++ [AgValue.vertexV vid lbl pr] }
        else s1
      .ok id s2
  | _ => .err .typeMismatch s

/-- The branch dispatch of `create_vertex` on
`CYPHER_TARGET_NODE_INSERT_ENTITY`. -/
def create_vertex_local (env : Env) (node : cypher_target_node)
    (s : CreateState) : CResult Graphid :=
  if CYPHER_TARGET_NODE_INSERT_ENTITY node.flags then
    create_vertex_insert env node s
  else
    create_vertex_reference env node s

/-- The part of `create_edge` that runs after the far vertex has been
resolved: compute `(start_id, end_id)` from the declared direction
(raising the missing-direction error when there is none), fill and insert
the edge tuple, record the physical write, and when the edge is output
build the edge value, splice it between the saved accumulator prefix and
the far side's accumulated values when `in_path`, and bind it when
`is_variable`.  `prev_path` is `css->path_values` as saved at entry to
`create_edge`. -/
def create_edge_tail (env : Env) (node : cypher_target_node)
    (prev_vertex_id : Graphid) (prev_path : List AgValue)
    (next_vertex_id : Graphid) (s1 : CreateState) : CResult Unit :=
  let dirids : Option (Graphid × Graphid) :=
    match node.dir with
    | .right => some (prev_vertex_id, next_vertex_id)
    | .left => some (next_vertex_id, prev_vertex_id)
    | .undirected => none
  match dirids with
  | none => .err .missingDirection s1
  | some (start_id, end_id) =>
    let id := node.id_value
    let tup : StoredTuple := .edgeT node.relid id node.id_isnull
      start_id false end_id false
      (slotValue s1.scantuple node.prop_attr_num)
      (slotIsNull s1.scantuple node.prop_attr_num)
    match insert_entity_tuple env tup s1 with
    | .err e s2 => .err e s2
    | .ok tuple s2 =>
      let s3 :=
        match node.variable_name with
        | some nm =>
          { s2 with tuple_info := add_tuple_info s2.tuple_info tuple nm }
        | none => s2
      let s4 :=
        if CYPHER_TARGET_NODE_OUTPUT node.flags then
          let result := make_edge id start_id end_id node.label_name
            (slotValue s3.scantuple node.prop_attr_num)
          let s4a :=
            if CYPHER_TARGET_NODE_IN_PATH node.flags then
              { s3 with path_values :=
                  (prev_path ++ [result]) ++ s3.path_values }
            else s3
          if CYPHER_TARGET_NODE_IS_VARIABLE node.flags then
            { s4a with scantuple :=
                slotAssign s4a.scantuple (node.tuple_position - 1) result }
          else s4a
        else s3
      .ok () s4

mutual

/-- Embedding of `create_vertex`: insert a new vertex or re-validate a
referenced one (`create_vertex_local`), then, if the path continues,
create the next edge, passing the vertex's id.  Returns the vertex's
graphid. -/
def create_vertex (env : Env) (node : cypher_target_node)
    (next : List cypher_target_node) (s : CreateState) : CResult Graphid :=
  match create_vertex_local env node s with
  | .err e sx => .err e sx
  | .ok id sr =>
    match next with
    | [] => .ok id sr
    | e :: rest =>
      match create_edge env e id rest sr with
      | .err er s4 => .err er s4
      | .ok _ s4 => .ok id s4
termination_by next.length

/-- Embedding of `create_edge`: save the path accumulator and reset it,
resolve the far vertex first (its id is needed for the edge tuple), then
run `create_edge_tail`. -/
def create_edge (env : Env) (node : cypher_target_node)
    (prev_vertex_id : Graphid) (next : List cypher_target_node)
    (s : CreateState) : CResult Unit :=
  match next with
  | [] => .err .brokenPath s
  | far :: rest =>
    match create_vertex env far rest { s with path_values := [] } with
    | .err e s1 => .err e s1
    | .ok next_vertex_id s1 =>
      create_edge_tail env node prev_vertex_id s.path_values next_vertex_id s1
termination_by next.length

end

/-- Embedding of one iteration of the `foreach` loop in `process_pattern`:
resolve one path starting from its first (always vertex) element, then, if
the path carries a path variable, assemble the accumulated values into a
path datum and store it in the scan tuple; finally reset the
accumulator. -/
def process_path (env : Env) (path : cypher_create_path) (s : CreateState) :
    CResult Unit :=
  match path.target_nodes with
  | [] => .err .brokenPath s
  | first :: rest =>
    match create_vertex env first rest s with
    | .err e s1 => .err e s1
    | .ok _ s1 =>
      let s2 :=
        match path.path_attr_num with
        | some attr =>
          { s1 with scantuple :=
              slotAssign s1.scantuple (attr - 1) (make_path s1.path_values) }
        | none => s1
      .ok () { s2 with path_values := [] }

/-- The `foreach (lc2, css->pattern)` loop of `process_pattern`. -/
def process_paths (env : Env) :
    List cypher_create_path → CreateState → CResult Unit
  | [], s => .ok () s
  | p :: ps, s =>
    match process_path env p s with
    | .err e s1 => .err e s1
    | .ok _ s1 => process_paths env ps s1

/-- Embedding of `process_pattern`: clear `css->tuple_info`, then create
the vertices and edges of every path of the pattern. -/
def process_pattern (env : Env) (pattern : List cypher_create_path)
    (s : CreateState) : CResult Unit :=
  process_paths env pattern { s with tuple_info := [] }

/-- Modelled from the spec: `Decrement_Estate_CommandId` (cypher_utils,
not under src/) moves the command id counter back to the value in effect
when the upstream subtree was constructed. -/
def Decrement_Estate_CommandId (s : CreateState) : CreateState :=
  { s with command_id := s.command_id - 1, trace := s.trace ++ [.decCmd] }

/-- Modelled from the spec: `Increment_Estate_CommandId` (cypher_utils,
not under src/) restores the command id that makes this clause's writes
visible. -/
def Increment_Estate_CommandId (s : CreateState) : CreateState :=
  { s with command_id := s.command_id + 1, trace := s.trace ++ [.incCmd] }

/-- A pull from the upstream plan node that yielded no row
(`TupIsNull(slot)`), logged with the command id in effect at the pull. -/
def pull_none (s : CreateState) : CreateState :=
  { s with trace := s.trace ++ [.pullRow s.command_id false] }

/-- A pull from the upstream plan node that yielded a row, logged with the
command id in effect at the pull. -/
def pull_got (s : CreateState) : CreateState :=
  { s with trace := s.trace ++ [.pullRow s.command_id true] }

/-- The terminal-mode `while(true)` loop of `exec_cypher_create`: pull a
row, stop when upstream is exhausted, otherwise install the row as the
shared scan tuple, clear `css->tuple_info` and process the pattern. -/
def exec_terminal (env : Env) (pattern : List cypher_create_path) :
    List ScanSlot → CreateState → CResult Unit
  | [], s =>
    let s1 := Decrement_Estate_CommandId s
    let s2 := pull_none s1
    let s3 := Increment_Estate_CommandId s2
    .ok () s3
  | row :: rest, s =>
    let s1 := Decrement_Estate_CommandId s
    let s2 := pull_got s1
    let s3 := Increment_Estate_CommandId s2
    let s4 := { s3 with scantuple := row, tuple_info := [] }
    match process_pattern env pattern s4 with
    | .err e sx => .err e sx
    | .ok _ s5 => exec_terminal env pattern rest s5

/-- The passthrough (non-terminal) branch of `exec_cypher_create`:
process exactly one upstream row, leaving its bindings in the shared scan
tuple, and return the projected row together with the remaining upstream
rows; return no row once upstream is exhausted. -/
def exec_passthrough (env : Env) (pattern : List cypher_create_path)
    (rows : List ScanSlot) (s : CreateState) :
    CResult (Option ScanSlot × List ScanSlot) :=
  let s1 := Decrement_Estate_CommandId s
  match rows with
  | [] =>
    let s2 := pull_none s1
    let s3 := Increment_Estate_CommandId s2
    .ok (none, []) s3
  | row :: rest =>
    let s2 := pull_got s1
    let s3 := Increment_Estate_CommandId s2
    let s4 := { s3 with scantuple := row, tuple_info := [] }
    match process_pattern env pattern s4 with
    | .err e sx => .err e sx
    | .ok _ s5 =>
      .ok (some (env.project_self (env.project_child s5.scantuple)), rest) s5

/-- Embedding of `exec_cypher_create`: terminal mode drains the upstream
subtree and returns no tuple; passthrough mode produces one projected row
per invocation. -/
def exec_cypher_create (env : Env) (terminal : Bool)
    (pattern : List cypher_create_path) (rows : List ScanSlot)
    (s : CreateState) : CResult (Option ScanSlot × List ScanSlot) :=
  if terminal then
    match exec_terminal env pattern rows s with
    | .err e sx => .err e sx
    | .ok _ sx => .ok (none, []) sx
  else
    exec_passthrough env pattern rows s

/-- Embedding of `rescan_cypher_create`: a rescan request always raises
the unsupported-reiteration error. -/
def rescan_cypher_create (s : CreateState) : CResult Unit :=
  .err .unsupportedReiteration s

/-! ### Basic lemmas about the state evolution -/

/-- `s'` is reachable from `s` by executor steps: the heap insert log only
grows by appends, and the command id and the event trace are untouched
(only `exec_cypher_create` itself moves those). -/
def stepExtends (s s' : CreateState) : Prop :=
  (∃ δ, s'.store = s.store ++ δ) ∧
    s'.command_id = s.command_id ∧ s'.trace = s.trace

/-! ### Characterization of `create_edge` -/

/-! ### Characterization of `create_vertex` -/

/-! ### Claims about edge creation -/

/-- The environment used by the concrete witnesses: every entity is
visible, no variable is recorded deleted, no constraint fails. -/
def envW : Env :=
  ⟨1, fun _ _ => true, fun _ => false, fun _ => true, id, id⟩

/-- A concrete input row for the witnesses. -/
def rowW : ScanSlot := ⟨[.rawV 7, .rawV 8], [false, false]⟩

/-- A concrete starting state for the witnesses. -/
def sW : CreateState := ⟨rowW, [], [], [], [], 5, []⟩

/-- A concrete insert-mode vertex element. -/
def farW : cypher_target_node :=
  ⟨.vertex, .undirected, ⟨true, false, false, false, false⟩, 20, "B", none,
    0, 2, 11, false⟩

/-- A concrete right-directed edge element. -/
def edgeW : cypher_target_node :=
  ⟨.edge, .right, ⟨true, false, false, false, false⟩, 30, "E", none,
    1, 3, 12, false⟩

/-- A concrete edge element with no direction. -/
def edgeUndirW : cypher_target_node :=
  ⟨.edge, .undirected, ⟨true, false, false, false, false⟩, 30, "E", none,
    1, 3, 12, false⟩

/-- A concrete edge element whose id expression evaluated to null. -/
def edgeNullIdW : cypher_target_node :=
  ⟨.edge, .right, ⟨true, false, false, false, false⟩, 30, "E", none,
    1, 3, 12, true⟩

/-! ### Re-iteration -/

/-! ### Reference-mode resolution (liveness) -/

/-- A concrete reference-mode vertex element bound to variable `x`. -/
def refW : cypher_target_node :=
  ⟨.vertex, .undirected, ⟨false, false, false, false, false⟩, 20, "P",
    some "x", 0, 1, 0, false⟩

/-- A concrete row whose slot 0 holds the bound vertex value. -/
def sRefW : CreateState :=
  ⟨⟨[.vertexV 7 "P" (.rawV 1)], [false]⟩, [], [], [], [], 5, []⟩

/-- Environment in which the variable's last write is marked deleted. -/
def envDelW : Env :=
  ⟨1, fun _ _ => true, fun _ => true, fun _ => true, id, id⟩

/-! ### The path accumulator and edge output values -/

/-- Is this value a vertex value? -/
def isVertexVal : AgValue → Bool
  | .vertexV _ _ _ => true
  | _ => false

/-- Is this value an edge value? -/
def isEdgeVal : AgValue → Bool
  | .edgeV _ _ _ _ _ => true
  | _ => false

/-- A concrete edge element flagged `in_path` but not `emits_output`. -/
def edgeInPathOnlyW : cypher_target_node :=
  ⟨.edge, .right, ⟨true, false, false, true, false⟩, 30, "E", none,
    1, 3, 12, false⟩

/-- A concrete insert-mode vertex flagged `emits_output` and `in_path`. -/
def farOutW : cypher_target_node :=
  ⟨.vertex, .undirected, ⟨true, false, true, true, false⟩, 20, "B", none,
    0, 2, 11, false⟩

/-- A concrete edge element flagged both `emits_output` and `in_path`. -/
def edgeOutPathW : cypher_target_node :=
  ⟨.edge, .right, ⟨true, false, true, true, false⟩, 30, "E", none,
    1, 3, 12, false⟩

/-! ### Path shape -/

/-- Well-formed value chain of a path: vertex, edge, vertex, ...,
ending with a vertex. -/
def chainVE : List AgValue → Bool
  | [] => false
  | [v] => isVertexVal v
  | v :: e :: rest => isVertexVal v && isEdgeVal e && chainVE rest

/-- Well-formed target-node list of a path: vertex, edge, vertex, ...,
ending with a vertex. -/
def wfVE : List cypher_target_node → Bool
  | [] => false
  | [n] => n.type == LabelKind.vertex
  | n :: e :: rest =>
    n.type == LabelKind.vertex && e.type == LabelKind.edge && wfVE rest

/-- All elements of the list are flagged `emits_output` and `in_path`. -/
def allOutPath (l : List cypher_target_node) : Bool :=
  l.all (fun n => CYPHER_TARGET_NODE_OUTPUT n.flags &&
    CYPHER_TARGET_NODE_IN_PATH n.flags)

/-- A single-path vertex element flagged `in_path` but not
`emits_output`. -/
def vInPathOnlyW : cypher_target_node :=
  ⟨.vertex, .undirected, ⟨true, false, false, true, false⟩, 20, "B", none,
    0, 2, 11, false⟩

/-- A one-element path carrying a path variable (slot 1). -/
def pathW : cypher_create_path := ⟨[vInPathOnlyW], some 1⟩

/-- The first vertex of the all-flagged witness path. -/
def vOutW : cypher_target_node :=
  ⟨.vertex, .undirected, ⟨true, false, true, true, false⟩, 20, "A", none,
    0, 1, 10, false⟩

/-- A three-element path (vertex, edge, vertex) with every element
flagged `emits_output` and `in_path`, carrying a path variable. -/
def pathOutW : cypher_create_path :=
  ⟨[vOutW, edgeOutPathW, farOutW], some 1⟩

/-! ### The produce operation -/

/-! ### The command id protocol around upstream pulls -/

/-- The trace added by the produce operation: a sequence of
decrement / pull / increment blocks, every pull logged at command id
`c`. -/
inductive PullBlocksAt (c : Int) : List Event → Prop where
  | nil : PullBlocksAt c []
  | cons (g : Bool) (rest : List Event) : PullBlocksAt c rest →
      PullBlocksAt c (Event.decCmd :: .pullRow c g :: .incCmd :: rest)

theorem stateOf_ok {α : Type} (a : α) (s : CreateState) :
    stateOf (.ok a s) = s := rfl

theorem stateOf_err {α : Type} (e : CreateError) (s : CreateState) :
    stateOf (CResult.err e s : CResult α) = s := rfl

theorem stepExtends_refl (s : CreateState) : stepExtends s s :=
  ⟨⟨[], by simp⟩, rfl, rfl⟩

theorem stepExtends_trans {s1 s2 s3 : CreateState}
    (h1 : stepExtends s1 s2) (h2 : stepExtends s2 s3) : stepExtends s1 s3 := by
  obtain ⟨⟨d1, hd1⟩, hc1, ht1⟩ := h1
  obtain ⟨⟨d2, hd2⟩, hc2, ht2⟩ := h2
  exact ⟨⟨d1 ++ d2, by simp [hd2, hd1]⟩, by rw [hc2, hc1], by rw [ht2, ht1]⟩

theorem insert_entity_tuple_ok {env : Env} {tup : StoredTuple}
    {s : CreateState} {a : StoredTuple} {s1 : CreateState}
    (h : insert_entity_tuple env tup s = .ok a s1) :
    a = tup ∧ s1 = { s with store := s.store ++ [tup] } := by
  unfold insert_entity_tuple at h
  split at h
  · injection h with h1 h2
    exact ⟨h1.symm, h2.symm⟩
  · cases h

theorem insert_entity_tuple_err {env : Env} {tup : StoredTuple}
    {s : CreateState} {e : CreateError} {s1 : CreateState}
    (h : insert_entity_tuple env tup s = .err e s1) :
    e = .constraintViolation ∧ s1 = s := by
  unfold insert_entity_tuple at h
  split at h
  · cases h
  · injection h with h1 h2
    exact ⟨h1.symm, h2.symm⟩

theorem create_vertex_insert_extends (env : Env) (node : cypher_target_node)
    (s : CreateState) :
    stepExtends s (stateOf (create_vertex_insert env node s)) := by
  simp only [create_vertex_insert]
  cases hins : insert_entity_tuple env
    (.vertexT node.relid node.id_value node.id_isnull
      (slotValue s.scantuple node.prop_attr_num)
      (slotIsNull s.scantuple node.prop_attr_num)) s with
  | err e s1 =>
    simp only [stateOf]
    rw [(insert_entity_tuple_err hins).2]
    exact stepExtends_refl s
  | ok tuple s1 =>
    simp only [stateOf]
    refine @stepExtends_trans s s1 _ ?_ ?_
    · rw [(insert_entity_tuple_ok hins).2]
      exact ⟨⟨_, rfl⟩, rfl, rfl⟩
    · (repeat' split) <;> exact ⟨⟨[], by simp⟩, rfl, rfl⟩

theorem check_vertex_liveness_skip {env : Env} {node : cypher_target_node}
    {id : Graphid} {s : CreateState}
    (h : SAFE_TO_SKIP_EXISTENCE_CHECK node.flags = true) :
    check_vertex_liveness env node id s = .ok () s := by
  unfold check_vertex_liveness
  simp [h]

theorem check_vertex_liveness_deleted {env : Env}
    {node : cypher_target_node} {id : Graphid} {s : CreateState}
    (hsk : SAFE_TO_SKIP_EXISTENCE_CHECK node.flags = false)
    (hd : env.var_last_write_deleted node.variable_name = true) :
    check_vertex_liveness env node id s =
      .err (.staleReference node.variable_name) s := by
  unfold check_vertex_liveness
  simp [hsk, hd]

theorem check_vertex_liveness_gone {env : Env}
    {node : cypher_target_node} {id : Graphid} {s : CreateState}
    (hsk : SAFE_TO_SKIP_EXISTENCE_CHECK node.flags = false)
    (hd : env.var_last_write_deleted node.variable_name = false)
    (hv : entity_exists env env.graph_oid id = false) :
    check_vertex_liveness env node id s =
      .err (.staleReference node.variable_name)
        { s with exists_calls := s.exists_calls ++ [id] } := by
  unfold check_vertex_liveness
  simp [hsk, hd, hv]

theorem check_vertex_liveness_live {env : Env}
    {node : cypher_target_node} {id : Graphid} {s : CreateState}
    (hsk : SAFE_TO_SKIP_EXISTENCE_CHECK node.flags = false)
    (hd : env.var_last_write_deleted node.variable_name = false)
    (hv : entity_exists env env.graph_oid id = true) :
    check_vertex_liveness env node id s =
      .ok () { s with exists_calls := s.exists_calls ++ [id] } := by
  unfold check_vertex_liveness
  simp [hsk, hd, hv]

theorem check_vertex_liveness_extends (env : Env)
    (node : cypher_target_node) (id : Graphid) (s : CreateState) :
    stepExtends s (stateOf (check_vertex_liveness env node id s)) := by
  cases hsk : SAFE_TO_SKIP_EXISTENCE_CHECK node.flags with
  | true =>
    rw [check_vertex_liveness_skip hsk]
    exact stepExtends_refl s
  | false =>
    cases hd : env.var_last_write_deleted node.variable_name with
    | true =>
      rw [check_vertex_liveness_deleted hsk hd]
      exact stepExtends_refl s
    | false =>
      cases hv : entity_exists env env.graph_oid id with
      | false =>
        rw [check_vertex_liveness_gone hsk hd hv]
        exact ⟨⟨[], by simp [stateOf]⟩, rfl, rfl⟩
      | true =>
        rw [check_vertex_liveness_live hsk hd hv]
        exact ⟨⟨[], by simp [stateOf]⟩, rfl, rfl⟩

theorem create_vertex_reference_extends (env : Env)
    (node : cypher_target_node) (s : CreateState) :
    stepExtends s (stateOf (create_vertex_reference env node s)) := by
  simp only [create_vertex_reference]
  split
  · next vid lbl pr _ =>
    have h := check_vertex_liveness_extends env node vid s
    cases hch : check_vertex_liveness env node vid s with
    | err e sx =>
      rw [hch] at h
      simp only [stateOf] at h ⊢
      exact h
    | ok a s1 =>
      rw [hch] at h
      simp only [stateOf] at h ⊢
      refine stepExtends_trans h ?_
      split <;> exact ⟨⟨[], by simp⟩, rfl, rfl⟩
  · exact stepExtends_refl s

theorem create_vertex_local_extends (env : Env) (node : cypher_target_node)
    (s : CreateState) :
    stepExtends s (stateOf (create_vertex_local env node s)) := by
  unfold create_vertex_local
  split
  · exact create_vertex_insert_extends env node s
  · exact create_vertex_reference_extends env node s

theorem create_edge_tail_extends (env : Env) (node : cypher_target_node)
    (prev : Graphid) (pp : List AgValue) (fid : Graphid) (s1 : CreateState) :
    stepExtends s1 (stateOf (create_edge_tail env node prev pp fid s1)) := by
  simp only [create_edge_tail]
  cases node.dir with
  | undirected => exact stepExtends_refl s1
  | right =>
    dsimp only
    cases hins : insert_entity_tuple env
      (.edgeT node.relid node.id_value node.id_isnull prev false fid false
        (slotValue s1.scantuple node.prop_attr_num)
        (slotIsNull s1.scantuple node.prop_attr_num)) s1 with
    | err e s2 =>
      simp only [stateOf]
      rw [(insert_entity_tuple_err hins).2]
      exact stepExtends_refl s1
    | ok tuple s2 =>
      simp only [stateOf]
      refine @stepExtends_trans s1 s2 _ ?_ ?_
      · rw [(insert_entity_tuple_ok hins).2]
        exact ⟨⟨_, rfl⟩, rfl, rfl⟩
      · (repeat' split) <;> exact ⟨⟨[], by simp⟩, rfl, rfl⟩
  | left =>
    dsimp only
    cases hins : insert_entity_tuple env
      (.edgeT node.relid node.id_value node.id_isnull fid false prev false
        (slotValue s1.scantuple node.prop_attr_num)
        (slotIsNull s1.scantuple node.prop_attr_num)) s1 with
    | err e s2 =>
      simp only [stateOf]
      rw [(insert_entity_tuple_err hins).2]
      exact stepExtends_refl s1
    | ok tuple s2 =>
      simp only [stateOf]
      refine @stepExtends_trans s1 s2 _ ?_ ?_
      · rw [(insert_entity_tuple_ok hins).2]
        exact ⟨⟨_, rfl⟩, rfl, rfl⟩
      · (repeat' split) <;> exact ⟨⟨[], by simp⟩, rfl, rfl⟩

theorem create_extends_aux : ∀ (k : Nat),
    (∀ (env : Env) (node : cypher_target_node)
        (next : List cypher_target_node) (s : CreateState), next.length < k →
      stepExtends s (stateOf (create_vertex env node next s))) ∧
    (∀ (env : Env) (node : cypher_target_node) (prev : Graphid)
        (next : List cypher_target_node) (s : CreateState), next.length < k →
      stepExtends s (stateOf (create_edge env node prev next s))) := by
  intro k
  induction k with
  | zero =>
    exact ⟨fun _ _ _ _ h => absurd h (Nat.not_lt_zero _),
      fun _ _ _ _ _ h => absurd h (Nat.not_lt_zero _)⟩
  | succ k ih =>
    refine ⟨?_, ?_⟩
    · intro env node next s hlen
      have hl := create_vertex_local_extends env node s
      cases hloc : create_vertex_local env node s with
      | err e sx =>
        rw [hloc] at hl
        simp only [create_vertex, hloc, stateOf] at hl ⊢
        exact hl
      | ok id sr =>
        rw [hloc] at hl
        simp only [stateOf] at hl
        cases next with
        | nil =>
          simp only [create_vertex, hloc, stateOf]
          exact hl
        | cons e rest =>
          simp only [create_vertex, hloc]
          have he := ih.2 env e id rest sr (Nat.lt_of_succ_lt_succ hlen)
          cases hedge : create_edge env e id rest sr with
          | err er s4 =>
            rw [hedge] at he
            simp only [stateOf] at he ⊢
            exact stepExtends_trans hl he
          | ok u s4 =>
            rw [hedge] at he
            simp only [stateOf] at he ⊢
            exact stepExtends_trans hl he
    · intro env node prev next s hlen
      cases next with
      | nil =>
        simp only [create_edge, stateOf]
        exact stepExtends_refl s
      | cons far rest =>
        simp only [create_edge]
        have hv := ih.1 env far rest { s with path_values := [] }
          (Nat.lt_of_succ_lt_succ hlen)
        cases hvx : create_vertex env far rest { s with path_values := [] } with
        | err e s1 =>
          rw [hvx] at hv
          simp only [stateOf] at hv ⊢
          exact hv
        | ok fid s1 =>
          rw [hvx] at hv
          simp only [stateOf] at hv ⊢
          exact stepExtends_trans hv (create_edge_tail_extends env node prev
            s.path_values fid s1)

theorem create_vertex_extends (env : Env) (node : cypher_target_node)
    (next : List cypher_target_node) (s : CreateState) :
    stepExtends s (stateOf (create_vertex env node next s)) :=
  (create_extends_aux (next.length + 1)).1 env node next s (Nat.lt_succ_self _)

theorem create_edge_extends (env : Env) (node : cypher_target_node)
    (prev : Graphid) (next : List cypher_target_node) (s : CreateState) :
    stepExtends s (stateOf (create_edge env node prev next s)) :=
  (create_extends_aux (next.length + 1)).2 env node prev next s
    (Nat.lt_succ_self _)

theorem process_path_extends (env : Env) (path : cypher_create_path)
    (s : CreateState) : stepExtends s (stateOf (process_path env path s)) := by
  unfold process_path
  cases path.target_nodes with
  | nil => exact stepExtends_refl s
  | cons first rest =>
    dsimp only
    have hv := create_vertex_extends env first rest s
    cases hvx : create_vertex env first rest s with
    | err e s1 =>
      rw [hvx] at hv
      simp only [stateOf] at hv ⊢
      exact hv
    | ok id s1 =>
      rw [hvx] at hv
      simp only [stateOf] at hv ⊢
      refine stepExtends_trans hv ?_
      split <;> exact ⟨⟨[], by simp⟩, rfl, rfl⟩

theorem process_paths_extends (env : Env) :
    ∀ (ps : List cypher_create_path) (s : CreateState),
      stepExtends s (stateOf (process_paths env ps s)) := by
  intro ps
  induction ps with
  | nil => intro s; exact stepExtends_refl s
  | cons p rest ih =>
    intro s
    simp only [process_paths]
    have hp := process_path_extends env p s
    cases hpx : process_path env p s with
    | err e s1 =>
      rw [hpx] at hp
      simp only [stateOf] at hp ⊢
      exact hp
    | ok u s1 =>
      rw [hpx] at hp
      simp only [stateOf] at hp
      exact stepExtends_trans hp (ih s1)

theorem process_pattern_extends (env : Env)
    (pattern : List cypher_create_path) (s : CreateState) :
    stepExtends s (stateOf (process_pattern env pattern s)) := by
  unfold process_pattern
  exact process_paths_extends env pattern { s with tuple_info := [] }

theorem create_edge_tail_undirected (env : Env) (node : cypher_target_node)
    (prev : Graphid) (pp : List AgValue) (fid : Graphid) (s1 : CreateState)
    (hdir : node.dir = .undirected) :
    create_edge_tail env node prev pp fid s1 = .err .missingDirection s1 := by
  unfold create_edge_tail
  rw [hdir]

theorem create_edge_tail_ok_store {env : Env} {node : cypher_target_node}
    {prev : Graphid} {pp : List AgValue} {fid : Graphid}
    {s1 sOut : CreateState}
    (h : create_edge_tail env node prev pp fid s1 = .ok () sOut) :
    ∃ sid eid,
      ((node.dir = .right ∧ sid = prev ∧ eid = fid) ∨
       (node.dir = .left ∧ sid = fid ∧ eid = prev)) ∧
      sOut.store = s1.store ++
        [.edgeT node.relid node.id_value node.id_isnull sid false eid false
          (slotValue s1.scantuple node.prop_attr_num)
          (slotIsNull s1.scantuple node.prop_attr_num)] := by
  unfold create_edge_tail at h
  cases hdir : node.dir with
  | undirected => rw [hdir] at h; cases h
  | right =>
    rw [hdir] at h
    dsimp only at h
    refine ⟨prev, fid, Or.inl ⟨rfl, rfl, rfl⟩, ?_⟩
    cases hins : insert_entity_tuple env
      (.edgeT node.relid node.id_value node.id_isnull prev false fid false
        (slotValue s1.scantuple node.prop_attr_num)
        (slotIsNull s1.scantuple node.prop_attr_num)) s1 with
    | err e s2 => rw [hins] at h; cases h
    | ok tuple s2 =>
      rw [hins] at h
      obtain ⟨rfl, rfl⟩ := insert_entity_tuple_ok hins
      injection h with h1 h2
      rw [← h2]
      (repeat' split) <;> rfl
  | left =>
    rw [hdir] at h
    dsimp only at h
    refine ⟨fid, prev, Or.inr ⟨rfl, rfl, rfl⟩, ?_⟩
    cases hins : insert_entity_tuple env
      (.edgeT node.relid node.id_value node.id_isnull fid false prev false
        (slotValue s1.scantuple node.prop_attr_num)
        (slotIsNull s1.scantuple node.prop_attr_num)) s1 with
    | err e s2 => rw [hins] at h; cases h
    | ok tuple s2 =>
      rw [hins] at h
      obtain ⟨rfl, rfl⟩ := insert_entity_tuple_ok hins
      injection h with h1 h2
      rw [← h2]
      (repeat' split) <;> rfl

theorem create_edge_tail_ok_path {env : Env} {node : cypher_target_node}
    {prev : Graphid} {pp : List AgValue} {fid : Graphid}
    {s1 sOut : CreateState}
    (hout : CYPHER_TARGET_NODE_OUTPUT node.flags = true)
    (hinp : CYPHER_TARGET_NODE_IN_PATH node.flags = true)
    (h : create_edge_tail env node prev pp fid s1 = .ok () sOut) :
    ∃ sid eid,
      ((node.dir = .right ∧ sid = prev ∧ eid = fid) ∨
       (node.dir = .left ∧ sid = fid ∧ eid = prev)) ∧
      sOut.path_values =
        (pp ++ [make_edge node.id_value sid eid node.label_name
          (slotValue s1.scantuple node.prop_attr_num)]) ++ s1.path_values := by
  unfold create_edge_tail at h
  cases hdir : node.dir with
  | undirected => rw [hdir] at h; cases h
  | right =>
    rw [hdir] at h
    dsimp only at h
    refine ⟨prev, fid, Or.inl ⟨rfl, rfl, rfl⟩, ?_⟩
    cases hins : insert_entity_tuple env
      (.edgeT node.relid node.id_value node.id_isnull prev false fid false
        (slotValue s1.scantuple node.prop_attr_num)
        (slotIsNull s1.scantuple node.prop_attr_num)) s1 with
    | err e s2 => rw [hins] at h; cases h
    | ok tuple s2 =>
      rw [hins] at h
      obtain ⟨rfl, rfl⟩ := insert_entity_tuple_ok hins
      rw [hout, hinp] at h
      simp only [if_true] at h
      injection h with h1 h2
      rw [← h2]
      (repeat' split) <;> rfl
  | left =>
    rw [hdir] at h
    dsimp only at h
    refine ⟨fid, prev, Or.inr ⟨rfl, rfl, rfl⟩, ?_⟩
    cases hins : insert_entity_tuple env
      (.edgeT node.relid node.id_value node.id_isnull fid false prev false
        (slotValue s1.scantuple node.prop_attr_num)
        (slotIsNull s1.scantuple node.prop_attr_num)) s1 with
    | err e s2 => rw [hins] at h; cases h
    | ok tuple s2 =>
      rw [hins] at h
      obtain ⟨rfl, rfl⟩ := insert_entity_tuple_ok hins
      rw [hout, hinp] at h
      simp only [if_true] at h
      injection h with h1 h2
      rw [← h2]
      (repeat' split) <;> rfl

theorem create_edge_ok_elim {env : Env} {node : cypher_target_node}
    {prev : Graphid} {next : List cypher_target_node} {s sOut : CreateState}
    (h : create_edge env node prev next s = .ok () sOut) :
    ∃ far rest fid s1, next = far :: rest ∧
      create_vertex env far rest { s with path_values := [] } = .ok fid s1 ∧
      create_edge_tail env node prev s.path_values fid s1 = .ok () sOut := by
  cases next with
  | nil => simp only [create_edge] at h; cases h
  | cons far rest =>
    simp only [create_edge] at h
    cases hvx : create_vertex env far rest { s with path_values := [] } with
    | err e s1 => rw [hvx] at h; cases h
    | ok fid s1 =>
      rw [hvx] at h
      exact ⟨far, rest, fid, s1, rfl, hvx, h⟩

theorem create_vertex_insert_ok_spec {env : Env} {node : cypher_target_node}
    {s : CreateState} {a : Graphid} {s' : CreateState}
    (h : create_vertex_insert env node s = .ok a s') :
    a = node.id_value ∧
      s'.store = s.store ++
        [.vertexT node.relid node.id_value node.id_isnull
          (slotValue s.scantuple node.prop_attr_num)
          (slotIsNull s.scantuple node.prop_attr_num)] := by
  simp only [create_vertex_insert] at h
  cases hins : insert_entity_tuple env
    (.vertexT node.relid node.id_value node.id_isnull
      (slotValue s.scantuple node.prop_attr_num)
      (slotIsNull s.scantuple node.prop_attr_num)) s with
  | err e s1 => rw [hins] at h; cases h
  | ok tuple s1 =>
    rw [hins] at h
    obtain ⟨rfl, rfl⟩ := insert_entity_tuple_ok hins
    injection h with h1 h2
    refine ⟨h1.symm, ?_⟩
    rw [← h2]
    (repeat' split) <;> rfl

theorem create_vertex_local_insert {env : Env} {node : cypher_target_node}
    {s : CreateState}
    (hm : CYPHER_TARGET_NODE_INSERT_ENTITY node.flags = true) :
    create_vertex_local env node s = create_vertex_insert env node s := by
  unfold create_vertex_local
  rw [hm]
  rfl

theorem create_vertex_local_reference {env : Env}
    {node : cypher_target_node} {s : CreateState}
    (hm : CYPHER_TARGET_NODE_INSERT_ENTITY node.flags = false) :
    create_vertex_local env node s = create_vertex_reference env node s := by
  unfold create_vertex_local
  rw [hm]
  rfl

theorem create_vertex_nil (env : Env) (node : cypher_target_node)
    (s : CreateState) :
    create_vertex env node [] s = create_vertex_local env node s := by
  cases h : create_vertex_local env node s <;> simp only [create_vertex, h]

theorem create_vertex_cons (env : Env) (node e : cypher_target_node)
    (rest : List cypher_target_node) (s : CreateState) :
    create_vertex env node (e :: rest) s =
      (match create_vertex_local env node s with
      | .err er sx => .err er sx
      | .ok vid sr =>
        match create_edge env e vid rest sr with
        | .err er s4 => .err er s4
        | .ok _ s4 => .ok vid s4) := by
  cases h : create_vertex_local env node s <;> simp only [create_vertex, h]

theorem create_vertex_ok_insert_mem {env : Env} {node : cypher_target_node}
    {next : List cypher_target_node} {s : CreateState} {fid : Graphid}
    {s1 : CreateState}
    (hm : CYPHER_TARGET_NODE_INSERT_ENTITY node.flags = true)
    (h : create_vertex env node next s = .ok fid s1) :
    fid = node.id_value ∧
      StoredTuple.vertexT node.relid node.id_value node.id_isnull
        (slotValue s.scantuple node.prop_attr_num)
        (slotIsNull s.scantuple node.prop_attr_num) ∈ s1.store := by
  cases next with
  | nil =>
    rw [create_vertex_nil, create_vertex_local_insert hm] at h
    obtain ⟨h1, h2⟩ := create_vertex_insert_ok_spec h
    exact ⟨h1, by rw [h2]; simp⟩
  | cons e rest =>
    rw [create_vertex_cons] at h
    cases hloc : create_vertex_local env node s with
    | err er sx => rw [hloc] at h; cases h
    | ok id sr =>
      rw [hloc] at h
      dsimp only at h
      rw [create_vertex_local_insert hm] at hloc
      obtain ⟨rfl, hst⟩ := create_vertex_insert_ok_spec hloc
      cases hedge : create_edge env e node.id_value rest sr with
      | err er s4 => rw [hedge] at h; cases h
      | ok u s4 =>
        rw [hedge] at h
        injection h with h1 h2
        subst h2
        have hext := create_edge_extends env e node.id_value rest sr
        rw [hedge] at hext
        simp only [stateOf] at hext
        obtain ⟨⟨δ, hδ⟩, -, -⟩ := hext
        refine ⟨h1.symm, ?_⟩
        rw [hδ, hst]
        simp

/-- C1: for every edge created by `create_edge` with direction `right`,
the inserted edge tuple's `start_id` is the near vertex's id (the vertex
preceding the edge) and `end_id` is the far vertex's id (the vertex
following it, resolved by the recursive `create_vertex` call); with
direction `left` the two are swapped. -/
theorem C1_edge_endpoint_correctness {env : Env} {node : cypher_target_node}
    {prev : Graphid} {next : List cypher_target_node} {s sOut : CreateState}
    (h : create_edge env node prev next s = .ok () sOut) :
    ∃ far rest fid s1,
      next = far :: rest ∧
      create_vertex env far rest { s with path_values := [] } = .ok fid s1 ∧
      ∃ sid eid,
        ((node.dir = .right ∧ sid = prev ∧ eid = fid) ∨
         (node.dir = .left ∧ sid = fid ∧ eid = prev)) ∧
        sOut.store = s1.store ++
          [.edgeT node.relid node.id_value node.id_isnull sid false eid false
            (slotValue s1.scantuple node.prop_attr_num)
            (slotIsNull s1.scantuple node.prop_attr_num)] := by
  obtain ⟨far, rest, fid, s1, hnext, hv, ht⟩ := create_edge_ok_elim h
  exact ⟨far, rest, fid, s1, hnext, hv, create_edge_tail_ok_store ht⟩

theorem C1_witness :
    ∃ sOut, create_edge envW edgeW 10 [farW] sW = .ok () sOut ∧
      ∃ far rest fid s1,
        ([farW] : List cypher_target_node) = far :: rest ∧
        create_vertex envW far rest { sW with path_values := [] } =
          .ok fid s1 ∧
        ∃ sid eid,
          ((edgeW.dir = .right ∧ sid = 10 ∧ eid = fid) ∨
           (edgeW.dir = .left ∧ sid = fid ∧ eid = 10)) ∧
          sOut.store = s1.store ++
            [.edgeT edgeW.relid edgeW.id_value edgeW.id_isnull sid false
              eid false (slotValue s1.scantuple edgeW.prop_attr_num)
              (slotIsNull s1.scantuple edgeW.prop_attr_num)] := by
  obtain ⟨sOut, h⟩ : ∃ sOut, create_edge envW edgeW 10 [farW] sW =
      .ok () sOut := by
    simp [create_edge, create_vertex, create_vertex_local,
      create_vertex_insert, create_vertex_reference, check_vertex_liveness,
      create_edge_tail, insert_entity_tuple, entity_exists, add_tuple_info,
      make_vertex, make_edge, slotValue, slotIsNull, slotAssign,
      CYPHER_TARGET_NODE_INSERT_ENTITY, CYPHER_TARGET_NODE_OUTPUT,
      CYPHER_TARGET_NODE_IN_PATH, CYPHER_TARGET_NODE_IS_VARIABLE,
      SAFE_TO_SKIP_EXISTENCE_CHECK, envW, sW, rowW, farW, edgeW]
  exact ⟨sOut, h, C1_edge_endpoint_correctness h⟩

/-- C4: `create_edge` first resolves the vertex following the edge (the
recursive `create_vertex` call), and only afterwards inserts the edge
tuple: the edge tuple is appended after the entire store produced by that
recursion, and when the far vertex is insert-mode its tuple is already in
the store at that point. -/
theorem C4_vertex_resolved_before_edge_insert {env : Env}
    {node : cypher_target_node} {prev : Graphid}
    {next : List cypher_target_node} {s sOut : CreateState}
    (h : create_edge env node prev next s = .ok () sOut) :
    ∃ far rest fid s1,
      next = far :: rest ∧
      create_vertex env far rest { s with path_values := [] } = .ok fid s1 ∧
      (∃ sid eid, sOut.store = s1.store ++
        [.edgeT node.relid node.id_value node.id_isnull sid false eid false
          (slotValue s1.scantuple node.prop_attr_num)
          (slotIsNull s1.scantuple node.prop_attr_num)]) ∧
      (CYPHER_TARGET_NODE_INSERT_ENTITY far.flags = true →
        fid = far.id_value ∧
        StoredTuple.vertexT far.relid far.id_value far.id_isnull
          (slotValue s.scantuple far.prop_attr_num)
          (slotIsNull s.scantuple far.prop_attr_num) ∈ s1.store) := by
  obtain ⟨far, rest, fid, s1, hnext, hv, ht⟩ := create_edge_ok_elim h
  obtain ⟨sid, eid, -, hst⟩ := create_edge_tail_ok_store ht
  exact ⟨far, rest, fid, s1, hnext, hv, ⟨sid, eid, hst⟩,
    fun hm => @create_vertex_ok_insert_mem env far rest
      { s with path_values := [] } fid s1 hm hv⟩

theorem C4_witness :
    ∃ sOut, create_edge envW edgeW 10 [farW] sW = .ok () sOut ∧
      ∃ far rest fid s1,
        ([farW] : List cypher_target_node) = far :: rest ∧
        create_vertex envW far rest { sW with path_values := [] } =
          .ok fid s1 ∧
        (∃ sid eid, sOut.store = s1.store ++
          [.edgeT edgeW.relid edgeW.id_value edgeW.id_isnull sid false
            eid false (slotValue s1.scantuple edgeW.prop_attr_num)
            (slotIsNull s1.scantuple edgeW.prop_attr_num)]) ∧
        (CYPHER_TARGET_NODE_INSERT_ENTITY far.flags = true →
          fid = far.id_value ∧
          StoredTuple.vertexT far.relid far.id_value far.id_isnull
            (slotValue sW.scantuple far.prop_attr_num)
            (slotIsNull sW.scantuple far.prop_attr_num) ∈ s1.store) := by
  obtain ⟨sOut, h⟩ : ∃ sOut, create_edge envW edgeW 10 [farW] sW =
      .ok () sOut := by
    simp [create_edge, create_vertex, create_vertex_local,
      create_vertex_insert, create_vertex_reference, check_vertex_liveness,
      create_edge_tail, insert_entity_tuple, entity_exists, add_tuple_info,
      make_vertex, make_edge, slotValue, slotIsNull, slotAssign,
      CYPHER_TARGET_NODE_INSERT_ENTITY, CYPHER_TARGET_NODE_OUTPUT,
      CYPHER_TARGET_NODE_IN_PATH, CYPHER_TARGET_NODE_IS_VARIABLE,
      SAFE_TO_SKIP_EXISTENCE_CHECK, envW, sW, rowW, farW, edgeW]
  exact ⟨sOut, h, C4_vertex_resolved_before_edge_insert h⟩

/-- C6: an edge spec whose direction is neither `left` nor `right` can
never be created: `create_edge` cannot succeed, and once the far vertex
has been resolved it raises the missing-direction error with the store
exactly as the recursion left it (its own edge tuple was never
inserted). -/
theorem C6_missing_direction_fatal (env : Env)
    (node far : cypher_target_node) (rest : List cypher_target_node)
    (prev : Graphid) (s : CreateState)
    (hdir : node.dir = .undirected) :
    (∀ (s' : CreateState),
      create_edge env node prev (far :: rest) s ≠ .ok () s') ∧
    (∀ (fid : Graphid) (s1 : CreateState),
      create_vertex env far rest { s with path_values := [] } = .ok fid s1 →
      create_edge env node prev (far :: rest) s =
        .err .missingDirection s1) := by
  constructor
  · intro s' hok
    obtain ⟨far', rest', fid, s1, -, -, ht⟩ := create_edge_ok_elim hok
    rw [create_edge_tail_undirected _ _ _ _ _ _ hdir] at ht
    cases ht
  · intro fid s1 hv
    simp only [create_edge]
    rw [hv]
    exact create_edge_tail_undirected env node prev s.path_values fid s1 hdir

theorem C6_witness :
    (∀ s', create_edge envW edgeUndirW 10 [farW] sW ≠ .ok () s') ∧
    ∃ (fid : Graphid) (s1 : CreateState),
      create_vertex envW farW [] { sW with path_values := [] } =
        .ok fid s1 ∧
      create_edge envW edgeUndirW 10 [farW] sW =
        .err .missingDirection s1 := by
  obtain ⟨fid, s1, hv⟩ : ∃ (fid : Graphid) (s1 : CreateState),
      create_vertex envW farW [] { sW with path_values := [] } =
        .ok fid s1 := by
    simp [create_vertex, create_vertex_local, create_vertex_insert,
      insert_entity_tuple, slotValue, slotIsNull,
      CYPHER_TARGET_NODE_INSERT_ENTITY, CYPHER_TARGET_NODE_OUTPUT,
      envW, sW, rowW, farW]
  exact ⟨(C6_missing_direction_fatal envW edgeUndirW farW [] 10 sW rfl).1,
    fid, s1, hv,
    (C6_missing_direction_fatal envW edgeUndirW farW [] 10 sW rfl).2
      fid s1 hv⟩

/-- C10 (implicit): the edge tuple inserted by `create_edge` always has
its `start_id` and `end_id` columns marked non-null, while its own id
column's null flag is exactly the null flag produced by evaluating the
edge's id expression, passed through without a check. -/
theorem C10_edge_tuple_null_flags {env : Env} {node : cypher_target_node}
    {prev : Graphid} {next : List cypher_target_node} {s sOut : CreateState}
    (h : create_edge env node prev next s = .ok () sOut) :
    ∃ (s1 : CreateState) (sid eid : Graphid),
      sOut.store = s1.store ++
        [.edgeT node.relid node.id_value node.id_isnull sid false eid false
          (slotValue s1.scantuple node.prop_attr_num)
          (slotIsNull s1.scantuple node.prop_attr_num)] := by
  obtain ⟨far, rest, fid, s1, -, -, ht⟩ := create_edge_ok_elim h
  obtain ⟨sid, eid, -, hst⟩ := create_edge_tail_ok_store ht
  exact ⟨s1, sid, eid, hst⟩

theorem C10_witness :
    ∃ sOut, create_edge envW edgeNullIdW 10 [farW] sW = .ok () sOut ∧
      ∃ (s1 : CreateState) (sid eid : Graphid),
        sOut.store = s1.store ++
          [.edgeT edgeNullIdW.relid edgeNullIdW.id_value
            edgeNullIdW.id_isnull sid false eid false
            (slotValue s1.scantuple edgeNullIdW.prop_attr_num)
            (slotIsNull s1.scantuple edgeNullIdW.prop_attr_num)] := by
  obtain ⟨sOut, h⟩ : ∃ sOut, create_edge envW edgeNullIdW 10 [farW] sW =
      .ok () sOut := by
    simp [create_edge, create_vertex, create_vertex_local,
      create_vertex_insert, create_edge_tail, insert_entity_tuple,
      slotValue, slotIsNull, CYPHER_TARGET_NODE_INSERT_ENTITY,
      CYPHER_TARGET_NODE_OUTPUT, envW, sW, rowW, farW, edgeNullIdW]
  exact ⟨sOut, h, C10_edge_tuple_null_flags h⟩

/-- C7: every rescan request fails with the unsupported-reiteration error,
for every state of the executor; it never succeeds. -/
theorem C7_rescan_always_fails (s : CreateState) :
    rescan_cypher_create s = .err .unsupportedReiteration s ∧
    ∀ (a : Unit) (s' : CreateState), rescan_cypher_create s ≠ .ok a s' := by
  refine ⟨rfl, ?_⟩
  intro a s' h
  cases h

theorem create_vertex_reference_eq {env : Env} {node : cypher_target_node}
    {s : CreateState} {vid : Graphid} {lbl : String} {pr : AgValue}
    (hslot : slotValue s.scantuple (node.tuple_position - 1) =
      .vertexV vid lbl pr) :
    create_vertex_reference env node s =
      (match check_vertex_liveness env node vid s with
       | .err e sx => .err e sx
       | .ok _ s1 =>
         .ok vid (if CYPHER_TARGET_NODE_IN_PATH node.flags then
           { s1 with path_values :=
               s1.path_values ++ [AgValue.vertexV vid lbl pr] }
          else s1)) := by
  unfold create_vertex_reference
  rw [hslot]

/-- C2: for a reference-mode vertex element (resolved on its own, `next =
[]`) whose slot holds a vertex value: without `skip_existence_check` the
resolution fails with the stale-reference error naming the element's
variable exactly when the recorded write is marked deleted or the storage
lookup fails; when neither holds it succeeds returning the bound id
unchanged; and with `skip_existence_check` set it succeeds with no
storage lookup recorded at all. -/
theorem C2_reference_liveness {env : Env} {node : cypher_target_node}
    {s : CreateState} {vid : Graphid} {lbl : String} {pr : AgValue}
    (hm : CYPHER_TARGET_NODE_INSERT_ENTITY node.flags = false)
    (hslot : slotValue s.scantuple (node.tuple_position - 1) =
      .vertexV vid lbl pr) :
    (SAFE_TO_SKIP_EXISTENCE_CHECK node.flags = false →
      ((env.var_last_write_deleted node.variable_name = true ∨
        entity_exists env env.graph_oid vid = false) ↔
       ∃ s', create_vertex env node [] s =
         .err (.staleReference node.variable_name) s')) ∧
    (SAFE_TO_SKIP_EXISTENCE_CHECK node.flags = false →
      env.var_last_write_deleted node.variable_name = false →
      entity_exists env env.graph_oid vid = true →
      ∃ s', create_vertex env node [] s = .ok vid s') ∧
    (SAFE_TO_SKIP_EXISTENCE_CHECK node.flags = true →
      ∃ s', create_vertex env node [] s = .ok vid s' ∧
        s'.exists_calls = s.exists_calls) := by
  rw [create_vertex_nil, create_vertex_local_reference hm,
    create_vertex_reference_eq hslot]
  refine ⟨?_, ?_, ?_⟩
  · intro hsk
    constructor
    · intro hbad
      cases hd : env.var_last_write_deleted node.variable_name with
      | true =>
        rw [check_vertex_liveness_deleted hsk hd]
        exact ⟨s, rfl⟩
      | false =>
        have hv : entity_exists env env.graph_oid vid = false := by
          rcases hbad with hb | hb
          · rw [hd] at hb; cases hb
          · exact hb
        rw [check_vertex_liveness_gone hsk hd hv]
        exact ⟨_, rfl⟩
    · rintro ⟨s', hs'⟩
      cases hd : env.var_last_write_deleted node.variable_name with
      | true => exact Or.inl rfl
      | false =>
        cases hv : entity_exists env env.graph_oid vid with
        | false => exact Or.inr rfl
        | true =>
          rw [check_vertex_liveness_live hsk hd hv] at hs'
          simp at hs'
  · intro hsk hd hv
    rw [check_vertex_liveness_live hsk hd hv]
    exact ⟨_, rfl⟩
  · intro hsk
    rw [check_vertex_liveness_skip hsk]
    cases hp : CYPHER_TARGET_NODE_IN_PATH node.flags with
    | true =>
      refine ⟨{ s with path_values :=
        s.path_values ++ [AgValue.vertexV vid lbl pr] }, ?_, rfl⟩
      simp
    | false =>
      refine ⟨s, ?_, rfl⟩
      simp

theorem C2_witness :
    (∃ s', create_vertex envDelW refW [] sRefW =
      .err (.staleReference (some "x")) s') ∧
    (∃ s', create_vertex envW refW [] sRefW = .ok 7 s') := by
  constructor
  · exact ((@C2_reference_liveness envDelW refW sRefW 7 "P" (.rawV 1)
      rfl rfl).1 rfl).mp (Or.inl rfl)
  · exact (@C2_reference_liveness envW refW sRefW 7 "P" (.rawV 1)
      rfl rfl).2.1 rfl rfl rfl

/-- C3 counterexample: a concrete edge spec with `in_path` set and
`emits_output` unset is created successfully (its tuple is in the store),
yet the final path accumulator holds no edge value: the `in_path` append
in `create_edge` is nested inside the output check. -/
theorem C3_counterexample :
    create_edge envW edgeInPathOnlyW 10 [farOutW] sW = .ok ()
      ⟨rowW, [.vertexV 11 "B" (.rawV 7)], [],
        [.vertexT 20 11 false (.rawV 7) false,
         .edgeT 30 12 false 10 false 11 false (.rawV 8) false],
        [], 5, []⟩ ∧
    CYPHER_TARGET_NODE_IN_PATH edgeInPathOnlyW.flags = true ∧
    ∀ x ∈ [AgValue.vertexV 11 "B" (.rawV 7)], isEdgeVal x = false := by
  refine ⟨?_, rfl, by simp [isEdgeVal]⟩
  simp [create_edge, create_vertex, create_vertex_local,
    create_vertex_insert, create_edge_tail, insert_entity_tuple,
    make_vertex, make_edge, slotValue, slotIsNull, slotAssign,
    CYPHER_TARGET_NODE_INSERT_ENTITY, CYPHER_TARGET_NODE_OUTPUT,
    CYPHER_TARGET_NODE_IN_PATH, CYPHER_TARGET_NODE_IS_VARIABLE,
    envW, sW, rowW, farOutW, edgeInPathOnlyW]

/-- C3 (amended): for every created edge whose spec has BOTH
`emits_output` and `in_path` set, the constructed edge value is spliced
into the path accumulator between the accumulator prefix saved at entry
and the far side's accumulated values; when `emits_output` is unset no
edge value is appended even if `in_path` is set (see the
counterexample). -/
theorem C3_edge_value_appended_to_path {env : Env}
    {node : cypher_target_node} {prev : Graphid}
    {next : List cypher_target_node} {s sOut : CreateState}
    (hout : CYPHER_TARGET_NODE_OUTPUT node.flags = true)
    (hinp : CYPHER_TARGET_NODE_IN_PATH node.flags = true)
    (h : create_edge env node prev next s = .ok () sOut) :
    ∃ far rest fid s1 sid eid,
      next = far :: rest ∧
      create_vertex env far rest { s with path_values := [] } = .ok fid s1 ∧
      sOut.path_values = (s.path_values ++
        [make_edge node.id_value sid eid node.label_name
          (slotValue s1.scantuple node.prop_attr_num)]) ++ s1.path_values := by
  obtain ⟨far, rest, fid, s1, hnext, hv, ht⟩ := create_edge_ok_elim h
  obtain ⟨sid, eid, -, hpv⟩ := create_edge_tail_ok_path hout hinp ht
  exact ⟨far, rest, fid, s1, sid, eid, hnext, hv, hpv⟩

theorem C3_witness :
    ∃ sOut, create_edge envW edgeOutPathW 10 [farOutW] sW = .ok () sOut ∧
      ∃ (far : cypher_target_node) (rest : List cypher_target_node)
          (fid : Graphid) (s1 : CreateState) (sid eid : Graphid),
        ([farOutW] : List cypher_target_node) = far :: rest ∧
        create_vertex envW far rest { sW with path_values := [] } =
          .ok fid s1 ∧
        sOut.path_values = (sW.path_values ++
          [make_edge edgeOutPathW.id_value sid eid edgeOutPathW.label_name
            (slotValue s1.scantuple edgeOutPathW.prop_attr_num)]) ++
          s1.path_values := by
  obtain ⟨sOut, h⟩ : ∃ sOut, create_edge envW edgeOutPathW 10 [farOutW] sW =
      .ok () sOut := by
    simp [create_edge, create_vertex, create_vertex_local,
      create_vertex_insert, create_edge_tail, insert_entity_tuple,
      make_vertex, make_edge, slotValue, slotIsNull, slotAssign,
      CYPHER_TARGET_NODE_INSERT_ENTITY, CYPHER_TARGET_NODE_OUTPUT,
      CYPHER_TARGET_NODE_IN_PATH, CYPHER_TARGET_NODE_IS_VARIABLE,
      envW, sW, rowW, farOutW, edgeOutPathW]
  exact ⟨sOut, h, C3_edge_value_appended_to_path rfl rfl h⟩

theorem chainVE_length_odd : ∀ (l : List AgValue), chainVE l = true →
    l.length % 2 = 1
  | [] => by simp [chainVE]
  | [v] => by simp [chainVE]
  | v :: e :: rest => by
    intro h
    simp only [chainVE, Bool.and_eq_true] at h
    have ih := chainVE_length_odd rest h.2
    simp only [List.length_cons]
    omega

theorem chainVE_alternates : ∀ (l : List AgValue), chainVE l = true →
    ∀ i, i < l.length →
      (i % 2 = 0 → isVertexVal (l.getD i (.rawV 0)) = true) ∧
      (i % 2 = 1 → isEdgeVal (l.getD i (.rawV 0)) = true)
  | [] => by simp [chainVE]
  | [v] => by
    intro h i hi
    simp only [chainVE] at h
    have hz : i = 0 := by simpa using Nat.lt_one_iff.mp (by simpa using hi)
    subst hz
    simp [h]
  | v :: e :: rest => by
    intro h i hi
    simp only [chainVE, Bool.and_eq_true] at h
    obtain ⟨⟨hv, he⟩, hr⟩ := h
    match i with
    | 0 => simp [hv]
    | 1 => simp [he]
    | Nat.succ (Nat.succ n) =>
      have ih := chainVE_alternates rest hr n
        (by simp only [List.length_cons] at hi; omega)
      constructor
      · intro hm
        have hm' : n % 2 = 0 := by omega
        simpa [List.getD] using ih.1 hm'
      · intro hm
        have hm' : n % 2 = 1 := by omega
        simpa [List.getD] using ih.2 hm'

theorem check_vertex_liveness_path (env : Env) (node : cypher_target_node)
    (id : Graphid) (s : CreateState) :
    (stateOf (check_vertex_liveness env node id s)).path_values =
      s.path_values ∧
    (stateOf (check_vertex_liveness env node id s)).scantuple =
      s.scantuple := by
  cases hsk : SAFE_TO_SKIP_EXISTENCE_CHECK node.flags with
  | true => rw [check_vertex_liveness_skip hsk]; exact ⟨rfl, rfl⟩
  | false =>
    cases hd : env.var_last_write_deleted node.variable_name with
    | true => rw [check_vertex_liveness_deleted hsk hd]; exact ⟨rfl, rfl⟩
    | false =>
      cases hv : entity_exists env env.graph_oid id with
      | false => rw [check_vertex_liveness_gone hsk hd hv]; exact ⟨rfl, rfl⟩
      | true => rw [check_vertex_liveness_live hsk hd hv]; exact ⟨rfl, rfl⟩

theorem create_vertex_insert_ok_path {env : Env}
    {node : cypher_target_node} {s : CreateState} {fid : Graphid}
    {s1 : CreateState}
    (hout : CYPHER_TARGET_NODE_OUTPUT node.flags = true)
    (hinp : CYPHER_TARGET_NODE_IN_PATH node.flags = true)
    (h : create_vertex_insert env node s = .ok fid s1) :
    s1.path_values = s.path_values ++
      [make_vertex node.id_value node.label_name
        (slotValue s.scantuple node.prop_attr_num)] := by
  simp only [create_vertex_insert] at h
  cases hins : insert_entity_tuple env
    (.vertexT node.relid node.id_value node.id_isnull
      (slotValue s.scantuple node.prop_attr_num)
      (slotIsNull s.scantuple node.prop_attr_num)) s with
  | err e sx => rw [hins] at h; cases h
  | ok tuple sx =>
    rw [hins] at h
    obtain ⟨rfl, rfl⟩ := insert_entity_tuple_ok hins
    rw [hout, hinp] at h
    simp only [if_true] at h
    split at h <;> (split at h <;> injection h with h1 h2) <;> rw [← h2]

theorem create_vertex_reference_ok_path {env : Env}
    {node : cypher_target_node} {s : CreateState} {fid : Graphid}
    {s1 : CreateState}
    (hinp : CYPHER_TARGET_NODE_IN_PATH node.flags = true)
    (h : create_vertex_reference env node s = .ok fid s1) :
    ∃ lbl pr, s1.path_values =
      s.path_values ++ [AgValue.vertexV fid lbl pr] := by
  unfold create_vertex_reference at h
  split at h
  · next vid lbl pr heq =>
    dsimp only at h
    refine ⟨lbl, pr, ?_⟩
    have hpv := (check_vertex_liveness_path env node vid s).1
    cases hch : check_vertex_liveness env node vid s with
    | err e sx => rw [hch] at h; cases h
    | ok a sx =>
      rw [hch] at h
      rw [hch] at hpv
      simp only [stateOf] at hpv
      rw [hinp] at h
      simp only [if_true] at h
      injection h with h1 h2
      subst h1
      rw [← h2]
      simp [hpv]
  · cases h

theorem create_vertex_local_ok_path {env : Env}
    {node : cypher_target_node} {s : CreateState} {fid : Graphid}
    {s1 : CreateState}
    (hflags : (CYPHER_TARGET_NODE_OUTPUT node.flags &&
      CYPHER_TARGET_NODE_IN_PATH node.flags) = true)
    (h : create_vertex_local env node s = .ok fid s1) :
    ∃ v, isVertexVal v = true ∧
      s1.path_values = s.path_values ++ [v] := by
  obtain ⟨hout, hinp⟩ := Bool.and_eq_true_iff.mp hflags
  unfold create_vertex_local at h
  split at h
  · exact ⟨make_vertex node.id_value node.label_name
      (slotValue s.scantuple node.prop_attr_num), rfl,
      create_vertex_insert_ok_path hout hinp h⟩
  · obtain ⟨lbl, pr, hpv⟩ := create_vertex_reference_ok_path hinp h
    exact ⟨.vertexV fid lbl pr, rfl, hpv⟩

theorem path_chain_aux : ∀ (k : Nat),
    (∀ (env : Env) (node : cypher_target_node)
        (next : List cypher_target_node) (s : CreateState) (fid : Graphid)
        (s1 : CreateState), next.length < k →
      (CYPHER_TARGET_NODE_OUTPUT node.flags &&
        CYPHER_TARGET_NODE_IN_PATH node.flags) = true →
      allOutPath next = true →
      create_vertex env node next s = .ok fid s1 →
      ∃ l, s1.path_values = s.path_values ++ l ∧ chainVE l = true) ∧
    (∀ (env : Env) (node : cypher_target_node) (prev : Graphid)
        (next : List cypher_target_node) (s : CreateState)
        (s1 : CreateState), next.length < k →
      (CYPHER_TARGET_NODE_OUTPUT node.flags &&
        CYPHER_TARGET_NODE_IN_PATH node.flags) = true →
      allOutPath next = true →
      create_edge env node prev next s = .ok () s1 →
      ∃ ev l, isEdgeVal ev = true ∧ chainVE l = true ∧
        s1.path_values = s.path_values ++ (ev :: l)) := by
  intro k
  induction k with
  | zero =>
    exact ⟨fun _ _ _ _ _ _ h => absurd h (Nat.not_lt_zero _),
      fun _ _ _ _ _ _ h => absurd h (Nat.not_lt_zero _)⟩
  | succ k ih =>
    refine ⟨?_, ?_⟩
    · intro env node next s fid s1 hlen hnf hall h
      cases next with
      | nil =>
        rw [create_vertex_nil] at h
        obtain ⟨v, hv, hpv⟩ := create_vertex_local_ok_path hnf h
        exact ⟨[v], hpv, by simp [chainVE, hv]⟩
      | cons e rest =>
        rw [create_vertex_cons] at h
        cases hloc : create_vertex_local env node s with
        | err er sx => rw [hloc] at h; cases h
        | ok vid sr =>
          rw [hloc] at h
          dsimp only at h
          obtain ⟨v, hv, hpv⟩ := create_vertex_local_ok_path hnf hloc
          unfold allOutPath at hall
          rw [List.all_cons] at hall
          obtain ⟨he1, he2⟩ := Bool.and_eq_true_iff.mp hall
          cases hedge : create_edge env e vid rest sr with
          | err er s4 => rw [hedge] at h; cases h
          | ok u s4 =>
            rw [hedge] at h
            injection h with h1 h2
            subst h2
            obtain ⟨ev, l, hev, hl, hpv2⟩ := ih.2 env e vid rest sr s4
              (Nat.lt_of_succ_lt_succ hlen) he1 he2 hedge
            refine ⟨v :: ev :: l, ?_, ?_⟩
            · rw [hpv2, hpv]
              simp
            · simp [chainVE, hv, hev, hl]
    · intro env node prev next s s1 hlen hnf hall h
      obtain ⟨far, rest, fid, sr, hnext, hvx, ht⟩ := create_edge_ok_elim h
      subst hnext
      unfold allOutPath at hall
      rw [List.all_cons] at hall
      obtain ⟨hf1, hf2⟩ := Bool.and_eq_true_iff.mp hall
      obtain ⟨hout, hinp⟩ := Bool.and_eq_true_iff.mp hnf
      obtain ⟨l, hpvr, hl⟩ := ih.1 env far rest { s with path_values := [] }
        fid sr (Nat.lt_of_succ_lt_succ hlen) hf1 hf2 hvx
      obtain ⟨sid, eid, -, hpv⟩ := create_edge_tail_ok_path hout hinp ht
      refine ⟨make_edge node.id_value sid eid node.label_name
        (slotValue sr.scantuple node.prop_attr_num), l, rfl, hl, ?_⟩
      rw [hpv, hpvr]
      simp

theorem create_vertex_path_chain {env : Env} {node : cypher_target_node}
    {next : List cypher_target_node} {s : CreateState} {fid : Graphid}
    {s1 : CreateState}
    (hnf : (CYPHER_TARGET_NODE_OUTPUT node.flags &&
      CYPHER_TARGET_NODE_IN_PATH node.flags) = true)
    (hall : allOutPath next = true)
    (h : create_vertex env node next s = .ok fid s1) :
    ∃ l, s1.path_values = s.path_values ++ l ∧ chainVE l = true :=
  (path_chain_aux (next.length + 1)).1 env node next s fid s1
    (Nat.lt_succ_self _) hnf hall h

/-- C9 counterexample: a well-formed single-vertex path, all elements
flagged `in_path`, carrying a path variable, resolves successfully, yet
the assembled path value is `make_path []`: length 0 (even), no leading
vertex.  The vertex value never reached the accumulator because the
`in_path` append in `create_vertex` sits inside the output check. -/
theorem C9_counterexample :
    process_path envW pathW sW = .ok ()
      ⟨⟨[.pathV [], .rawV 8], [false, false]⟩, [], [],
        [.vertexT 20 11 false (.rawV 7) false], [], 5, []⟩ ∧
    wfVE pathW.target_nodes = true ∧
    (∀ n ∈ pathW.target_nodes, CYPHER_TARGET_NODE_IN_PATH n.flags = true) ∧
    pathW.path_attr_num = some 1 ∧
    slotValue (⟨[.pathV [], .rawV 8], [false, false]⟩ : ScanSlot) 0 =
      make_path [] ∧
    ¬ (([] : List AgValue).length % 2 = 1) := by
  refine ⟨?_, by decide, ?_, rfl, rfl, by simp⟩
  · simp [process_path, create_vertex, create_vertex_local,
      create_vertex_insert, insert_entity_tuple, make_path, slotValue,
      slotIsNull, slotAssign, CYPHER_TARGET_NODE_INSERT_ENTITY,
      CYPHER_TARGET_NODE_OUTPUT, CYPHER_TARGET_NODE_IN_PATH,
      envW, sW, rowW, pathW, vInPathOnlyW]
  · intro n hn
    simp only [pathW, List.mem_singleton] at hn
    subst hn
    rfl

/-- C9 (amended): for every path carrying a path variable, whose elements
are well-formed (vertex first, alternating, vertex last) and all flagged
`in_path` AND `emits_output`, a successful resolution stores the
assembled path value `make_path l` in the path's slot, where `l` has odd
length, begins and ends with a vertex value, and strictly alternates
vertex and edge values. -/
theorem C9_assembled_path_shape {env : Env} {path : cypher_create_path}
    {first : cypher_target_node} {rest : List cypher_target_node}
    {attr : Nat} {s s' : CreateState}
    (hnodes : path.target_nodes = first :: rest)
    (hwf : wfVE (first :: rest) = true)
    (hflags : allOutPath (first :: rest) = true)
    (hattr : path.path_attr_num = some attr)
    (hpv : s.path_values = [])
    (h : process_path env path s = .ok () s') :
    ∃ (l : List AgValue) (s1 : CreateState),
      s'.scantuple = slotAssign s1.scantuple (attr - 1) (make_path l) ∧
      chainVE l = true ∧
      l.length % 2 = 1 ∧
      isVertexVal (l.getD 0 (.rawV 0)) = true ∧
      isVertexVal (l.getD (l.length - 1) (.rawV 0)) = true ∧
      (∀ i, i < l.length →
        (i % 2 = 0 → isVertexVal (l.getD i (.rawV 0)) = true) ∧
        (i % 2 = 1 → isEdgeVal (l.getD i (.rawV 0)) = true)) := by
  unfold process_path at h
  rw [hnodes] at h
  dsimp only at h
  unfold allOutPath at hflags
  rw [List.all_cons] at hflags
  obtain ⟨h1, h2⟩ := Bool.and_eq_true_iff.mp hflags
  cases hvx : create_vertex env first rest s with
  | err e sx => rw [hvx] at h; cases h
  | ok fid s1 =>
    rw [hvx, hattr] at h
    dsimp only at h
    injection h with hu hs'
    obtain ⟨l, hpv1, hchain⟩ := create_vertex_path_chain h1 h2 hvx
    rw [hpv] at hpv1
    have hodd := chainVE_length_odd l hchain
    refine ⟨l, s1, ?_, hchain, hodd, ?_, ?_,
      chainVE_alternates l hchain⟩
    · rw [← hs']
      simp only []
      rw [hpv1]
      simp
    · exact ((chainVE_alternates l hchain) 0 (by omega)).1 rfl
    · exact ((chainVE_alternates l hchain) (l.length - 1) (by omega)).1
        (by omega)

theorem C9_witness :
    ∃ s', process_path envW pathOutW sW = .ok () s' ∧
      ∃ (l : List AgValue) (s1 : CreateState),
        s'.scantuple = slotAssign s1.scantuple (1 - 1) (make_path l) ∧
        chainVE l = true ∧
        l.length % 2 = 1 ∧
        isVertexVal (l.getD 0 (.rawV 0)) = true ∧
        isVertexVal (l.getD (l.length - 1) (.rawV 0)) = true ∧
        (∀ i, i < l.length →
          (i % 2 = 0 → isVertexVal (l.getD i (.rawV 0)) = true) ∧
          (i % 2 = 1 → isEdgeVal (l.getD i (.rawV 0)) = true)) := by
  obtain ⟨s', h⟩ : ∃ s', process_path envW pathOutW sW = .ok () s' := by
    simp [process_path, create_vertex, create_vertex_local,
      create_vertex_insert, create_edge, create_edge_tail,
      insert_entity_tuple, make_path, make_vertex, make_edge, slotValue,
      slotIsNull, slotAssign, CYPHER_TARGET_NODE_INSERT_ENTITY,
      CYPHER_TARGET_NODE_OUTPUT, CYPHER_TARGET_NODE_IN_PATH,
      CYPHER_TARGET_NODE_IS_VARIABLE, envW, sW, rowW, pathOutW, vOutW,
      edgeOutPathW, farOutW]
  exact ⟨s', h, C9_assembled_path_shape rfl (by decide) (by decide)
    rfl rfl h⟩

theorem exec_cypher_create_terminal_eq (env : Env)
    (pattern : List cypher_create_path) (rows : List ScanSlot)
    (s : CreateState) :
    exec_cypher_create env true pattern rows s =
      (match exec_terminal env pattern rows s with
       | .err e sx => .err e sx
       | .ok _ sx => .ok (none, []) sx) := by
  rfl

theorem exec_cypher_create_passthrough_eq (env : Env)
    (pattern : List cypher_create_path) (rows : List ScanSlot)
    (s : CreateState) :
    exec_cypher_create env false pattern rows s =
      exec_passthrough env pattern rows s := by
  rfl

/-- C5: in terminal mode one invocation of the produce operation loops
over every remaining upstream row, processing the pattern for each, and
returns no tuple (and no remaining rows); in passthrough mode each
invocation pulls exactly one upstream row, processes the pattern with the
row installed as the shared scan tuple, returns the projected row
(leaving the bindings in the state's scan tuple), and returns
end-of-output exactly when upstream is exhausted. -/
theorem C5_terminal_and_passthrough :
    (∀ (env : Env) (pattern : List cypher_create_path)
        (rows : List ScanSlot) (s : CreateState) (out : Option ScanSlot)
        (rem : List ScanSlot) (s' : CreateState),
      exec_cypher_create env true pattern rows s = .ok (out, rem) s' →
      out = none ∧ rem = []) ∧
    (∀ (env : Env) (pattern : List cypher_create_path) (row : ScanSlot)
        (rest : List ScanSlot) (s : CreateState),
      exec_cypher_create env true pattern (row :: rest) s =
        (match process_pattern env pattern
            { Increment_Estate_CommandId (pull_got
                (Decrement_Estate_CommandId s)) with
              scantuple := row, tuple_info := [] } with
         | .err e sx => .err e sx
         | .ok _ s5 => exec_cypher_create env true pattern rest s5)) ∧
    (∀ (env : Env) (pattern : List cypher_create_path) (row : ScanSlot)
        (rest : List ScanSlot) (s : CreateState),
      exec_cypher_create env false pattern (row :: rest) s =
        (match process_pattern env pattern
            { Increment_Estate_CommandId (pull_got
                (Decrement_Estate_CommandId s)) with
              scantuple := row, tuple_info := [] } with
         | .err e sx => .err e sx
         | .ok _ s5 =>
           .ok (some (env.project_self (env.project_child s5.scantuple)),
             rest) s5)) ∧
    (∀ (env : Env) (pattern : List cypher_create_path) (s : CreateState),
      exec_cypher_create env false pattern [] s =
        .ok (none, []) (Increment_Estate_CommandId (pull_none
          (Decrement_Estate_CommandId s)))) := by
  refine ⟨?_, ?_, ?_, ?_⟩
  · intro env pattern rows s out rem s' h
    rw [exec_cypher_create_terminal_eq] at h
    cases hx : exec_terminal env pattern rows s with
    | err e sx => rw [hx] at h; cases h
    | ok u sx =>
      rw [hx] at h
      injection h with h1 h2
      injection h1 with ha hb
      exact ⟨ha.symm, hb.symm⟩
  · intro env pattern row rest s
    rw [exec_cypher_create_terminal_eq]
    simp only [exec_terminal]
    cases hp : process_pattern env pattern
        { Increment_Estate_CommandId (pull_got
            (Decrement_Estate_CommandId s)) with
          scantuple := row, tuple_info := [] } with
    | err e sx => rfl
    | ok u s5 =>
      dsimp only
      rw [exec_cypher_create_terminal_eq]
  · intro env pattern row rest s
    rw [exec_cypher_create_passthrough_eq]
    simp only [exec_passthrough]
  · intro env pattern s
    rfl

theorem C5_witness :
    ∃ (out : Option ScanSlot) (rem : List ScanSlot) (s' : CreateState),
      exec_cypher_create envW true [] [rowW] sW = .ok (out, rem) s' ∧
      out = none ∧ rem = [] := by
  obtain ⟨out, rem, s', h⟩ : ∃ (out : Option ScanSlot)
      (rem : List ScanSlot) (s' : CreateState),
      exec_cypher_create envW true [] [rowW] sW = .ok (out, rem) s' := by
    simp [exec_cypher_create, exec_terminal, process_pattern,
      process_paths, Decrement_Estate_CommandId,
      Increment_Estate_CommandId, pull_got, pull_none, envW, sW, rowW]
  exact ⟨out, rem, s', h,
    C5_terminal_and_passthrough.1 envW [] [rowW] sW out rem s' h⟩

theorem pullBlocksAt_guarded {c : Int} {t : List Event}
    (h : PullBlocksAt c t) :
    ∀ (i : Nat) (cid : Int) (g : Bool),
      t.get? i = some (.pullRow cid g) →
      cid = c ∧ 0 < i ∧ t.get? (i - 1) = some .decCmd ∧
        t.get? (i + 1) = some .incCmd := by
  induction h with
  | nil =>
    intro i cid g hi
    simp at hi
  | cons g rest hrest ih =>
    intro i cid g' hi
    match i with
    | 0 => simp [List.get?] at hi
    | 1 =>
      simp only [List.get?] at hi
      injection hi with hi
      injection hi with h1 h2
      subst h1
      exact ⟨rfl, Nat.zero_lt_one, rfl, rfl⟩
    | 2 => simp [List.get?] at hi
    | Nat.succ (Nat.succ (Nat.succ n)) =>
      have hr : rest.get? n = some (.pullRow cid g') := by
        simpa [List.get?] using hi
      obtain ⟨hc, hpos, hd, hinc⟩ := ih n cid g' hr
      obtain ⟨m, rfl⟩ : ∃ m, n = m + 1 := ⟨n - 1, by omega⟩
      refine ⟨hc, by omega, ?_, ?_⟩
      · simpa [List.get?] using hd
      · simpa [List.get?] using hinc

theorem exec_terminal_trace (env : Env)
    (pattern : List cypher_create_path) :
    ∀ (rows : List ScanSlot) (s : CreateState),
      ∃ t, (stateOf (exec_terminal env pattern rows s)).trace =
          s.trace ++ t ∧
        PullBlocksAt (s.command_id - 1) t ∧
        (stateOf (exec_terminal env pattern rows s)).command_id =
          s.command_id := by
  intro rows
  induction rows with
  | nil =>
    intro s
    exact ⟨[.decCmd, .pullRow (s.command_id - 1) false, .incCmd],
      by simp [exec_terminal, Decrement_Estate_CommandId, pull_none,
        Increment_Estate_CommandId, stateOf],
      PullBlocksAt.cons false [] PullBlocksAt.nil,
      by simp [exec_terminal, Decrement_Estate_CommandId, pull_none,
        Increment_Estate_CommandId, stateOf]⟩
  | cons row rest ih =>
    intro s
    simp only [exec_terminal]
    have hs4tr : ({ Increment_Estate_CommandId (pull_got
        (Decrement_Estate_CommandId s)) with
          scantuple := row, tuple_info := [] } : CreateState).trace =
        s.trace ++ [.decCmd, .pullRow (s.command_id - 1) true, .incCmd] := by
      simp [Decrement_Estate_CommandId, pull_got,
        Increment_Estate_CommandId]
    have hs4c : ({ Increment_Estate_CommandId (pull_got
        (Decrement_Estate_CommandId s)) with
          scantuple := row, tuple_info := [] } : CreateState).command_id =
        s.command_id := by
      simp [Decrement_Estate_CommandId, pull_got,
        Increment_Estate_CommandId]
    have hext := process_pattern_extends env pattern
      { Increment_Estate_CommandId (pull_got
          (Decrement_Estate_CommandId s)) with
        scantuple := row, tuple_info := [] }
    cases hp : process_pattern env pattern
        { Increment_Estate_CommandId (pull_got
            (Decrement_Estate_CommandId s)) with
          scantuple := row, tuple_info := [] } with
    | err e sx =>
      rw [hp] at hext
      simp only [stateOf] at hext ⊢
      obtain ⟨-, hc, ht⟩ := hext
      exact ⟨[.decCmd, .pullRow (s.command_id - 1) true, .incCmd],
        by rw [ht, hs4tr],
        PullBlocksAt.cons true [] PullBlocksAt.nil,
        by rw [hc, hs4c]⟩
    | ok u s5 =>
      rw [hp] at hext
      simp only [stateOf] at hext ⊢
      obtain ⟨-, hc, ht⟩ := hext
      obtain ⟨t', ht', hb', hc'⟩ := ih s5
      simp only [stateOf] at ht' hc'
      refine ⟨[.decCmd, .pullRow (s.command_id - 1) true, .incCmd] ++ t',
        ?_, ?_, ?_⟩
      · rw [ht']
        rw [ht, hs4tr]
        simp
      · have hc5 : s5.command_id = s.command_id := by rw [hc, hs4c]
        rw [hc5] at hb'
        exact PullBlocksAt.cons true t' hb'
      · rw [hc']
        rw [hc, hs4c]

theorem exec_passthrough_trace (env : Env)
    (pattern : List cypher_create_path) (rows : List ScanSlot)
    (s : CreateState) :
    ∃ t, (stateOf (exec_passthrough env pattern rows s)).trace =
        s.trace ++ t ∧
      PullBlocksAt (s.command_id - 1) t ∧
      (stateOf (exec_passthrough env pattern rows s)).command_id =
        s.command_id := by
  cases rows with
  | nil =>
    exact ⟨[.decCmd, .pullRow (s.command_id - 1) false, .incCmd],
      by simp [exec_passthrough, Decrement_Estate_CommandId, pull_none,
        Increment_Estate_CommandId, stateOf],
      PullBlocksAt.cons false [] PullBlocksAt.nil,
      by simp [exec_passthrough, Decrement_Estate_CommandId, pull_none,
        Increment_Estate_CommandId, stateOf]⟩
  | cons row rest =>
    simp only [exec_passthrough]
    have hs4tr : ({ Increment_Estate_CommandId (pull_got
        (Decrement_Estate_CommandId s)) with
          scantuple := row, tuple_info := [] } : CreateState).trace =
        s.trace ++ [.decCmd, .pullRow (s.command_id - 1) true, .incCmd] := by
      simp [Decrement_Estate_CommandId, pull_got,
        Increment_Estate_CommandId]
    have hs4c : ({ Increment_Estate_CommandId (pull_got
        (Decrement_Estate_CommandId s)) with
          scantuple := row, tuple_info := [] } : CreateState).command_id =
        s.command_id := by
      simp [Decrement_Estate_CommandId, pull_got,
        Increment_Estate_CommandId]
    have hext := process_pattern_extends env pattern
      { Increment_Estate_CommandId (pull_got
          (Decrement_Estate_CommandId s)) with
        scantuple := row, tuple_info := [] }
    cases hp : process_pattern env pattern
        { Increment_Estate_CommandId (pull_got
            (Decrement_Estate_CommandId s)) with
          scantuple := row, tuple_info := [] } with
    | err e sx =>
      rw [hp] at hext
      simp only [stateOf] at hext ⊢
      obtain ⟨-, hc, ht⟩ := hext
      exact ⟨[.decCmd, .pullRow (s.command_id - 1) true, .incCmd],
        by rw [ht, hs4tr], PullBlocksAt.cons true [] PullBlocksAt.nil,
        by rw [hc, hs4c]⟩
    | ok u s5 =>
      rw [hp] at hext
      simp only [stateOf] at hext ⊢
      obtain ⟨-, hc, ht⟩ := hext
      exact ⟨[.decCmd, .pullRow (s.command_id - 1) true, .incCmd],
        by rw [ht, hs4tr], PullBlocksAt.cons true [] PullBlocksAt.nil,
        by rw [hc, hs4c]⟩

/-- C8: in both modes, the trace of one produce invocation (starting from
an empty trace) consists solely of decrement / pull / increment blocks:
every pull from upstream is immediately preceded by the command id
decrement and immediately followed by the increment, every pull happens
at command id `s.command_id - 1` (the value in effect when upstream was
constructed), and the command id is back to its entry value when the
invocation finishes. -/
theorem C8_pull_protocol (env : Env) (terminal : Bool)
    (pattern : List cypher_create_path) (rows : List ScanSlot)
    (s : CreateState) (htr : s.trace = []) :
    ∃ t, (stateOf (exec_cypher_create env terminal pattern rows s)).trace =
        t ∧
      PullBlocksAt (s.command_id - 1) t ∧
      (∀ (i : Nat) (cid : Int) (g : Bool),
        t.get? i = some (.pullRow cid g) →
        cid = s.command_id - 1 ∧ 0 < i ∧
        t.get? (i - 1) = some .decCmd ∧
        t.get? (i + 1) = some .incCmd) ∧
      (stateOf (exec_cypher_create env terminal pattern rows s)).command_id =
        s.command_id := by
  cases terminal with
  | true =>
    obtain ⟨t, ht, hb, hc⟩ := exec_terminal_trace env pattern rows s
    have hsame : stateOf (exec_cypher_create env true pattern rows s) =
        stateOf (exec_terminal env pattern rows s) := by
      rw [exec_cypher_create_terminal_eq]
      cases exec_terminal env pattern rows s <;> rfl
    refine ⟨t, ?_, hb, pullBlocksAt_guarded hb, ?_⟩
    · rw [hsame, ht, htr]
      simp
    · rw [hsame, hc]
  | false =>
    obtain ⟨t, ht, hb, hc⟩ := exec_passthrough_trace env pattern rows s
    have hsame : stateOf (exec_cypher_create env false pattern rows s) =
        stateOf (exec_passthrough env pattern rows s) := by
      rw [exec_cypher_create_passthrough_eq]
    refine ⟨t, ?_, hb, pullBlocksAt_guarded hb, ?_⟩
    · rw [hsame, ht, htr]
      simp
    · rw [hsame, hc]

theorem C8_witness :
    ∃ t, (stateOf (exec_cypher_create envW false [] [rowW] sW)).trace = t ∧
      PullBlocksAt (sW.command_id - 1) t ∧
      (∀ (i : Nat) (cid : Int) (g : Bool),
        t.get? i = some (.pullRow cid g) →
        cid = sW.command_id - 1 ∧ 0 < i ∧
        t.get? (i - 1) = some .decCmd ∧
        t.get? (i + 1) = some .incCmd) ∧
      (stateOf (exec_cypher_create envW false [] [rowW] sW)).command_id =
        sW.command_id :=
  C8_pull_protocol envW false [] [rowW] sW rfl
